import Mathlib

/-!
Verification of the SamuraiAgent query-resolution pipeline
(`backend/sensei_search/agents/samurai_agent.py`).

The Python source is shallowly embedded below: Python strings are Lean
`String`s, Python `str.strip` / `str.split` are modelled over the character
list, the per-URL page fetch and the two language-model calls are oracles
passed in as explicit inputs, and `SamuraiAgent.run` is modelled both as a
deterministic outcome function (`runOutcome`) and as a relation on event
traces (`RunTrace`) capturing every interleaving that the `asyncio.gather`
join barriers allow.
-/

namespace Sensei

/-! ### Python string primitives -/

/-- The characters Python `str.strip()` removes (ASCII whitespace). -/
def pyIsSpace (c : Char) : Bool :=
  c = ' ' || c = '\t' || c = '\n' || c = '\x0d' || c = '\x0b' || c = '\x0c'

/-- Remove leading and trailing characters satisfying `p` from a character
list, as Python `str.strip(chars)` does. -/
def stripWhile (p : Char → Bool) (l : List Char) : List Char :=
  ((l.dropWhile p).reverse.dropWhile p).reverse

/-- Python `s.strip()`: remove surrounding whitespace. -/
def pyStrip (s : String) : String :=
  ⟨stripWhile pyIsSpace s.data⟩

/-- Python `s.strip(c)` for a single strip character `c`. -/
def pyStripChar (c : Char) (s : String) : String :=
  ⟨stripWhile (· = c) s.data⟩

/-- Python `s.split(sep)` for a one-character separator `sep`: splits on every
occurrence and keeps empty pieces, so the result is never empty. -/
def pySplitCharList (sep : Char) : List Char → List (List Char)
  | [] => [[]]
  | c :: rest =>
    if c = sep then
      [] :: pySplitCharList sep rest
    else
      match pySplitCharList sep rest with
      | [] => [[c]]
      | h :: t => (c :: h) :: t

/-- Python `s.split(sep)` on strings. -/
def pySplitChar (sep : Char) (s : String) : List String :=
  (pySplitCharList sep s.data).map String.mk

/-! ### Data model

`GeneralResult` comes from `sensei_search.tools`, which is not part of the
source under verification.  Modelled from the spec: §3 gives a search hit the
fields `url`, `title`, `content`; §4.5 step 4 says the raw hit also carries
internal ranking fields that must not be emitted, represented here by the
single stand-in field `engine`. -/
structure GeneralResult where
  url : String
  title : String
  content : String
  engine : String
  deriving DecidableEq, Repr

/-- A search hit trimmed to the three public fields, as built by
`emit_web_results` and by the `web_results` list saved in `run`. -/
structure WebResult where
  url : String
  title : String
  content : String
  deriving DecidableEq, Repr

/-- Modelled from the spec: an image hit from `sensei_search.tools` has a page
`url` and an `img_src` (§3 MediaResult). -/
structure ImageResult where
  url : String
  img_src : String
  deriving DecidableEq, Repr

/-- Modelled from the spec: a video hit from `sensei_search.tools` has a page
`url` (§3 MediaResult). -/
structure VideoResult where
  url : String
  deriving DecidableEq, Repr

/-- Modelled from the spec: `TopResults` from `sensei_search.tools`, the
result of one search call (§3). -/
structure TopResults where
  general : List GeneralResult
  images : List ImageResult
  videos : List VideoResult
  deriving DecidableEq, Repr

/-- One flattened media item as emitted by `emit_medium_results` and as stored
in the `mediums` field of the chat history. -/
inductive Medium where
  | image (url imgSrc : String)
  | video (url : String)
  deriving DecidableEq, Repr

/-- The five classification flags (`QueryTags` from `sensei_search.base_agent`,
shape fixed by its construction in `process_user_query`). -/
structure QueryTags where
  needs_search : Bool
  needs_image : Bool
  needs_video : Bool
  content_violation : Bool
  has_math : Bool
  deriving DecidableEq, Repr

/-- `EnrichedQuery`: the rewritten search query together with the tags. -/
structure EnrichedQuery where
  search_query : String
  tags : QueryTags
  deriving DecidableEq, Repr

/-- Search categories (`Category` from `sensei_search.tools`). -/
inductive Cat where
  | general
  | images
  | videos
  deriving DecidableEq, Repr

/-- The chat-history record assembled at the end of `run`. -/
structure ChatHistory where
  id : String
  thread_id : String
  mediums : List Medium
  web_results : List WebResult
  query : String
  answer : String
  metadata_has_math : Bool
  deriving DecidableEq, Repr

/-! ### QueryClassifier: `process_user_query` -/

/-- `query.strip('"').strip("'")`: the only post-processing applied to the
rewrite model's output before it is used as the search query. -/
def rewriteQuery (s : String) : String :=
  pyStripChar '\'' (pyStripChar '"' s)

/-- One `KEY:VALUE` item: `tag.strip().split(":")` must yield exactly two
parts, otherwise Python's `dict(...)` constructor raises. -/
def parsePair (tag : String) : Except Unit (String × String) :=
  match pySplitChar ':' (pyStrip tag) with
  | [k, v] => .ok (k, v)
  | _ => .error ()

/-- Parse every comma-separated piece in order, failing at the first piece
that is not a `KEY:VALUE` pair (as the `dict(...)` constructor does while
consuming the generator). -/
def parsePairs : List String → Except Unit (List (String × String))
  | [] => .ok []
  | t :: rest => do
    let p ← parsePair t
    let ps ← parsePairs rest
    .ok (p :: ps)

/-- `dict(tag.strip().split(":") for tag in classify_response.split(","))`
applied to the quote-stripped classification output: the association list of
parsed pairs, or a failure if any piece is not a `KEY:VALUE` pair. -/
def parseClassification (raw : String) : Except Unit (List (String × String)) :=
  parsePairs (pySplitChar ',' (pyStripChar '\'' (pyStripChar '"' raw)))

/-- Python `dict` lookup with default (`tags_dict.get(key, default)`): on
duplicate keys the last occurrence wins. -/
def dictGet (d : List (String × String)) (key dflt : String) : String :=
  match (d.filter (fun p => p.1 = key)).getLast? with
  | some p => p.2
  | none => dflt

/-- The `QueryTags(...)` construction from the parsed dictionary, with the
per-field defaults of `process_user_query`. -/
def queryTagsOfDict (d : List (String × String)) : QueryTags where
  needs_search := pyStrip (dictGet d "SEARCH_NEEDED" "YES") = "YES"
  needs_image := pyStrip (dictGet d "SEARCH_IMAGE" "YES") = "YES"
  needs_video := pyStrip (dictGet d "SEARCH_VIDEO" "YES") = "YES"
  content_violation := pyStrip (dictGet d "CONTENT_VIOLATION" "NO") = "YES"
  has_math := pyStrip (dictGet d "MATH" "NO") = "YES"

/-- `process_user_query`, as a function of the two model outputs: parse the
classification into tags (propagating a parse failure) and strip the rewrite
output into the search query. -/
def processUserQuery (rewriteRaw classifyRaw : String) : Except Unit EnrichedQuery := do
  let d ← parseClassification classifyRaw
  .ok { search_query := rewriteQuery rewriteRaw, tags := queryTagsOfDict d }

/-- The five keys `process_user_query` looks up. -/
def recognizedKeys : List String :=
  ["SEARCH_NEEDED", "SEARCH_IMAGE", "SEARCH_VIDEO", "CONTENT_VIOLATION", "MATH"]

/-! ### PageFetcher: `fetch_web_pages` -/

/-- Python `page or ""`: a failed fetch (`None`) and an empty page both give
the empty string; any other page text is kept. -/
def pyOrEmpty : Option String → String
  | some h => if h = "" then "" else h
  | none => ""

/-- `fetch_web_pages`: one fetch per result URL, in input order; a fetch whose
request raised is `none` and becomes the empty string; every page then goes
through the content extractor (`trafilatura.extract`).  The fetch outcomes and
the extractor are oracles: the network and `trafilatura` are outside the
source. -/
def fetchWebPages (results : List GeneralResult) (fetchOracle : String → Option String)
    (extract : String → String) : List String :=
  results.map fun r => extract (pyOrEmpty (fetchOracle r.url))

/-! ### AnswerSynthesizer: `gen_answer` -/

/-- The accumulated (and emitted) fragments of `gen_answer`: each streamed
chunk's `delta.content` is an optional string, and only truthy contents
(present and non-empty) are appended and emitted. -/
def genAnswerParts : List (Option String) → List String
  | [] => []
  | none :: rest => genAnswerParts rest
  | some s :: rest => if s = "" then genAnswerParts rest else s :: genAnswerParts rest

/-- `"".join(final_answer_parts)`. -/
def joinParts (l : List String) : String :=
  l.foldr (· ++ ·) ""

/-! ### Emission payloads and metadata -/

/-- The per-result projection of `emit_web_results` and of the `web_results`
list saved by `run`: exactly `url`, `title`, `content`. -/
def trimResult (r : GeneralResult) : WebResult :=
  ⟨r.url, r.title, r.content⟩

/-- The flattening of a `TopResults` into medium items, images first then
videos, as done both in `emit_medium_results` and when building `mediums`
for the chat history. -/
def flattenMediums (tr : TopResults) : List Medium :=
  tr.images.map (fun i => Medium.image i.url i.img_src)
    ++ tr.videos.map (fun v => Medium.video v.url)

/-- `True if tags and tags['has_math'] else False` (line 272): the `has_math`
carried by the metadata event.  `tags` as built by `process_user_query` is a
five-key dictionary, hence truthy whenever present. -/
def metadataEventHasMath (tags : Option QueryTags) : Bool :=
  match tags with
  | some t => if t.has_math then true else false
  | none => false

/-- `metadata = MetaData(has_math=False)` followed by
`if tags is not None and tags['has_math']: metadata["has_math"] = True`
(lines 335-338): the `has_math` stored in the persisted record. -/
def persistedHasMath (tags : Option QueryTags) : Bool :=
  let initial := false
  match tags with
  | some t => if t.has_math then true else initial
  | none => initial

/-- The categories list for the optional second search (lines 285-291):
images appended first when `needs_image`, then videos when `needs_video`. -/
def categoriesOf (t : QueryTags) : List Cat :=
  (if t.needs_image then [Cat.images] else [])
    ++ (if t.needs_video then [Cat.videos] else [])

/-! ### PipelineOrchestrator: `run` -/

/-- The external collaborators and model outputs one `run` consumes:
the user turn and identifiers, the two small-model outputs, the search
service, the per-URL fetch outcomes, the content extractor, and the streamed
chunks of the answer model. -/
structure RunInputs where
  userMessage : String
  threadId : String
  freshId : String
  rewriteRaw : String
  classifyRaw : String
  searchOracle : String → List Cat → TopResults
  fetchOracle : String → Option String
  extract : String → String
  chunks : List (Option String)

/-- Everything a successful `run` computes: the query and tags, the search
results and their trimmed payload, the fetch fan-out, the medium branch, the
answer, and the assembled chat-history record. -/
structure RunOutcome where
  searchQuery : String
  tags : QueryTags
  generalResults : List GeneralResult
  webPayload : List WebResult
  fetchInput : List GeneralResult
  fetchedPages : List String
  metaHasMath : Bool
  mediumOpt : Option TopResults
  mediumPayload : List Medium
  answerParts : List String
  answer : String
  record : ChatHistory
  deriving DecidableEq, Repr

/-- The data flow of the successful part of `run` (lines 264-350), given the
`EnrichedQuery` produced by `process_user_query`: first search with the
rewritten query, trimmed web payload, top-5 fetch fan-out, optional media
search when the tags request images or videos, flattened medium payload,
streamed answer, and the final record handed to `save_chat_history`. -/
def runOutcomeOf (I : RunInputs) (eq : EnrichedQuery) : RunOutcome :=
  let query := eq.search_query
  let tags := eq.tags
  let searchResults := I.searchOracle query [Cat.general]
  let generalResults := searchResults.general
  let fetchInput := generalResults.take 5
  let cats := categoriesOf tags
  let mediumOpt := if cats = [] then none else some (I.searchOracle query cats)
  let mediumTR := mediumOpt.getD (TopResults.mk [] [] [])
  let parts := genAnswerParts I.chunks
  let answer := joinParts parts
  let record : ChatHistory :=
    { id := I.freshId
      thread_id := I.threadId
      mediums := flattenMediums mediumTR
      web_results := generalResults.map trimResult
      query := I.userMessage
      answer := answer
      metadata_has_math := persistedHasMath (some tags) }
  { searchQuery := query
    tags := tags
    generalResults := generalResults
    webPayload := generalResults.map trimResult
    fetchInput := fetchInput
    fetchedPages := fetchWebPages fetchInput I.fetchOracle I.extract
    metaHasMath := metadataEventHasMath (some tags)
    mediumOpt := mediumOpt
    mediumPayload := flattenMediums mediumTR
    answerParts := parts
    answer := answer
    record := record }

/-- `run` (lines 253-350): `process_user_query` either fails — its parse
error propagates and aborts the run before any emission or persistence — or
yields the enriched query that drives the rest of the pipeline. -/
def runOutcome (I : RunInputs) : Except Unit RunOutcome := do
  let eq ← processUserQuery I.rewriteRaw I.classifyRaw
  .ok (runOutcomeOf I eq)

/-- The observable events of a run: the four client events plus the final
hand-off to the persistence collaborator. -/
inductive Event where
  | metadata (hasMath : Bool)
  | webResults (payload : List WebResult)
  | mediumResults (payload : List Medium)
  | answer (fragment : String)
  | persist (record : ChatHistory)
  deriving DecidableEq, Repr

/-- `Interleave xs ys zs`: `zs` is an order-preserving merge of `xs` and
`ys`, the possible schedules of two concurrent tasks joined by a barrier. -/
inductive Interleave {α : Type} : List α → List α → List α → Prop where
  | nil : Interleave [] [] []
  | left {x : α} {xs ys zs : List α} :
      Interleave xs ys zs → Interleave (x :: xs) ys (x :: zs)
  | right {y : α} {xs ys zs : List α} :
      Interleave xs ys zs → Interleave xs (y :: ys) (y :: zs)

/-- The event traces `run` can produce.  A classification parse failure
propagates before any emission, so a failed run emits nothing and persists
nothing.  A successful run emits the metadata event (its `gather` barrier
completes before the next stage), then the web-results event (its barrier
completes before the final stage), then any interleaving of the answer
fragments with the single medium-results event, and finally hands the record
to the store. -/
def RunTrace (I : RunInputs) (t : List Event) : Prop :=
  (runOutcome I = .error () ∧ t = []) ∨
  (∃ o, runOutcome I = .ok o ∧ ∃ mid,
    Interleave (o.answerParts.map Event.answer) [Event.mediumResults o.mediumPayload] mid ∧
    t = Event.metadata o.metaHasMath :: Event.webResults o.webPayload ::
      mid ++ [Event.persist o.record])

/-! ### Spec-side definitions for the rewrite post-processing -/

/-- Remove leading characters satisfying `p`, by direct recursion. -/
def dropLeadRec (p : Char → Bool) : List Char → List Char
  | [] => []
  | c :: cs => if p c then dropLeadRec p cs else c :: cs

/-- Remove trailing characters satisfying `p`, by direct recursion. -/
def dropTrailRec (p : Char → Bool) : List Char → List Char
  | [] => []
  | c :: cs =>
    match dropTrailRec p cs with
    | [] => if p c then [] else [c]
    | h :: t => c :: h :: t

/-- Remove the maximal run of characters satisfying `p` at each end. -/
def stripEndsRec (p : Char → Bool) (l : List Char) : List Char :=
  dropTrailRec p (dropLeadRec p l)

/-- The spec's words for the rewrite post-processing as the claim states
them: the output trimmed of surrounding whitespace, then surrounding quote
characters stripped. -/
def specRewriteOriginal (s : String) : String :=
  ⟨stripWhile (fun c => c = '"' || c = '\'') (stripWhile pyIsSpace s.data)⟩

/-- The amended rewrite post-processing: surrounding double-quote characters
stripped, then surrounding single-quote characters stripped, with no
whitespace trimming. -/
def specRewriteAmended (s : String) : String :=
  ⟨stripEndsRec (· = '\'') (stripEndsRec (· = '"') s.data)⟩

/-! ### Concrete inputs used by witnesses and counterexamples -/

/-- The `EnrichedQuery` a given input's classification parses to (meaningful
when the parse succeeds). -/
def outcomeOfInputs (I : RunInputs) : RunOutcome :=
  runOutcomeOf I
    ⟨rewriteQuery I.rewriteRaw,
     queryTagsOfDict ((parseClassification I.classifyRaw).toOption.getD [])⟩

/-- A sample organic search hit. -/
def sampleHit : GeneralResult :=
  ⟨"https://e.x/a", "T", "C", "ddg"⟩

/-- A second sample organic search hit. -/
def sampleHit2 : GeneralResult :=
  ⟨"https://e.x/b", "U", "D", "ddg"⟩

/-- A search collaborator with one general hit and no media hits. -/
def oracleGeneralOnly : String → List Cat → TopResults := fun _ cats =>
  if cats = [Cat.general] then ⟨[sampleHit], [], []⟩ else ⟨[], [], []⟩

/-- A search collaborator with two general hits and no media hits. -/
def oracleTwoHits : String → List Cat → TopResults := fun _ cats =>
  if cats = [Cat.general] then ⟨[sampleHit, sampleHit2], [], []⟩ else ⟨[], [], []⟩

/-- A run whose tags request images but whose media search comes back empty. -/
def cIn3 : RunInputs where
  userMessage := "m3"
  threadId := "th3"
  freshId := "id3"
  rewriteRaw := "q3"
  classifyRaw := "SEARCH_NEEDED:YES,SEARCH_IMAGE:YES,SEARCH_VIDEO:NO,CONTENT_VIOLATION:NO,MATH:NO"
  searchOracle := oracleGeneralOnly
  fetchOracle := fun _ => none
  extract := fun _ => ""
  chunks := [some "a"]

/-- A run whose tags request neither images nor videos. -/
def cIn3w : RunInputs where
  userMessage := "m3w"
  threadId := "th3w"
  freshId := "id3w"
  rewriteRaw := "q3w"
  classifyRaw := "SEARCH_IMAGE:NO,SEARCH_VIDEO:NO"
  searchOracle := oracleGeneralOnly
  fetchOracle := fun _ => none
  extract := fun _ => ""
  chunks := [some "a"]

/-- A run with one answer fragment and no media, for the ordering claim. -/
def cIn4 : RunInputs where
  userMessage := "m4"
  threadId := "th4"
  freshId := "id4"
  rewriteRaw := "q4"
  classifyRaw := "SEARCH_IMAGE:NO,SEARCH_VIDEO:NO"
  searchOracle := oracleGeneralOnly
  fetchOracle := fun _ => none
  extract := fun _ => ""
  chunks := [some "hi"]

/-- One possible trace of `cIn4`'s run. -/
def tr4 : List Event :=
  [Event.metadata false,
   Event.webResults [⟨"https://e.x/a", "T", "C"⟩],
   Event.answer "hi",
   Event.mediumResults [],
   Event.persist ⟨"id4", "th4", [], [⟨"https://e.x/a", "T", "C"⟩], "m4", "hi", false⟩]

/-- A run whose rewrite output has surrounding whitespace. -/
def cIn5 : RunInputs where
  userMessage := "m5"
  threadId := "th5"
  freshId := "id5"
  rewriteRaw := " hi "
  classifyRaw := "MATH:NO"
  searchOracle := oracleGeneralOnly
  fetchOracle := fun _ => none
  extract := fun _ => ""
  chunks := [some "a"]

/-- A run whose classification output has no `KEY:VALUE` shape. -/
def cIn6 : RunInputs where
  userMessage := "m6"
  threadId := "th6"
  freshId := "id6"
  rewriteRaw := "q6"
  classifyRaw := "garbage"
  searchOracle := oracleGeneralOnly
  fetchOracle := fun _ => none
  extract := fun _ => ""
  chunks := [some "a"]

/-- A run with math tags, a skipped chunk and an empty chunk, for the
persistence claim. -/
def cIn8 : RunInputs where
  userMessage := "m8"
  threadId := "th8"
  freshId := "id8"
  rewriteRaw := "q8"
  classifyRaw := "SEARCH_IMAGE:NO,SEARCH_VIDEO:NO,MATH:YES"
  searchOracle := oracleGeneralOnly
  fetchOracle := fun _ => none
  extract := fun _ => ""
  chunks := [some "ok", none, some ""]

/-- The record `cIn8`'s run persists. -/
def rec8 : ChatHistory :=
  ⟨"id8", "th8", [], [⟨"https://e.x/a", "T", "C"⟩], "m8", "ok", true⟩

/-- One possible trace of `cIn8`'s run. -/
def tr8 : List Event :=
  [Event.metadata true,
   Event.webResults [⟨"https://e.x/a", "T", "C"⟩],
   Event.mediumResults [],
   Event.answer "ok",
   Event.persist rec8]

/-- A run classified with `MATH:YES`, for the metadata-agreement claim. -/
def cIn9 : RunInputs where
  userMessage := "m9"
  threadId := "th9"
  freshId := "id9"
  rewriteRaw := "q9"
  classifyRaw := "SEARCH_NEEDED:YES,SEARCH_IMAGE:NO,SEARCH_VIDEO:NO,CONTENT_VIOLATION:NO,MATH:YES"
  searchOracle := oracleGeneralOnly
  fetchOracle := fun _ => none
  extract := fun _ => ""
  chunks := [some "a"]

/-- A run with two general hits, for the trimming claim. -/
def cIn10 : RunInputs where
  userMessage := "m10"
  threadId := "th10"
  freshId := "id10"
  rewriteRaw := "q10"
  classifyRaw := "SEARCH_IMAGE:NO,SEARCH_VIDEO:NO"
  searchOracle := oracleTwoHits
  fetchOracle := fun _ => none
  extract := fun _ => ""
  chunks := [some "a"]

/-! ### Helper lemmas -/

theorem empty_append_str (s : String) : "" ++ s = s := by
  cases s; rfl

theorem dropLeadRec_eq_dropWhile (p : Char → Bool) (l : List Char) :
    dropLeadRec p l = l.dropWhile p := by
  induction l with
  | nil => rfl
  | cons c cs ih =>
    by_cases h : p c <;> simp [dropLeadRec, List.dropWhile_cons, h, ih]

theorem dropTrailRec_eq (p : Char → Bool) (l : List Char) :
    dropTrailRec p l = (l.reverse.dropWhile p).reverse := by
  induction l with
  | nil => rfl
  | cons c cs ih =>
    cases hd : dropTrailRec p cs with
    | nil =>
      rw [hd] at ih
      have hnil : cs.reverse.dropWhile p = [] := by
        have h2 := ih.symm
        rwa [List.reverse_eq_nil_iff] at h2
      simp only [dropTrailRec, hd, List.reverse_cons, List.dropWhile_append, hnil,
        List.isEmpty_nil, if_pos, List.dropWhile_cons, List.dropWhile_nil]
      by_cases h : p c <;> simp [h]
    | cons h t =>
      have hne : cs.reverse.dropWhile p ≠ [] := by
        intro hx
        rw [hx] at ih
        simp at ih
        rw [ih] at hd
        cases hd
      simp only [dropTrailRec, hd, List.reverse_cons, List.dropWhile_append]
      rw [if_neg (by simpa using hne)]
      rw [List.reverse_append, List.reverse_singleton]
      simp only [List.singleton_append, List.cons.injEq, true_and]
      rw [← ih, hd]

theorem stripEndsRec_eq_stripWhile (p : Char → Bool) (l : List Char) :
    stripEndsRec p l = stripWhile p l := by
  rw [stripEndsRec, stripWhile, dropLeadRec_eq_dropWhile, dropTrailRec_eq]

theorem rewriteQuery_eq_amended (s : String) :
    rewriteQuery s = specRewriteAmended s := by
  rw [rewriteQuery, specRewriteAmended, pyStripChar, pyStripChar,
    stripEndsRec_eq_stripWhile, stripEndsRec_eq_stripWhile]

theorem genAnswerParts_eq_filter (chunks : List (Option String)) :
    genAnswerParts chunks = (chunks.filterMap id).filter (fun s => s != "") := by
  induction chunks with
  | nil => rfl
  | cons c rest ih =>
    cases c with
    | none => simpa [genAnswerParts] using ih
    | some s =>
      by_cases h : s = "" <;>
        simp [genAnswerParts, h, List.filter_cons, ih]

theorem joinParts_filter_ne (l : List String) :
    joinParts (l.filter (fun s => s != "")) = joinParts l := by
  induction l with
  | nil => rfl
  | cons s rest ih =>
    by_cases h : s = ""
    · subst h
      simpa [joinParts, List.filter_cons, empty_append_str] using ih
    · simp only [joinParts, List.filter_cons, List.foldr] at ih ⊢
      simp [h, ih]

theorem parsePair_error_iff (t : String) :
    parsePair t = .error () ↔ (pySplitChar ':' (pyStrip t)).length ≠ 2 := by
  rcases hs : pySplitChar ':' (pyStrip t) with _ | ⟨k, _ | ⟨v, _ | ⟨w, rest⟩⟩⟩ <;>
    simp [parsePair, hs]

theorem parsePairs_error_iff (l : List String) :
    parsePairs l = .error () ↔ ∃ t ∈ l, parsePair t = .error () := by
  induction l with
  | nil => simp [parsePairs]
  | cons t rest ih =>
    cases hp : parsePair t with
    | error e =>
      cases e
      simp [parsePairs, hp, Bind.bind, Except.bind]
    | ok p =>
      cases hr : parsePairs rest with
      | error e =>
        cases e
        simp only [parsePairs, hp, hr, Bind.bind, Except.bind]
        constructor
        · intro _
          obtain ⟨u, hu, hb⟩ := ih.mp hr
          exact ⟨u, List.mem_cons_of_mem _ hu, hb⟩
        · intro _
          trivial
      | ok ps =>
        simp only [parsePairs, hp, hr, Bind.bind, Except.bind]
        simp only [hr] at ih
        constructor
        · intro hx; cases hx
        · rintro ⟨u, hu, hbad⟩
          rcases List.mem_cons.mp hu with rfl | hu2
          · rw [hp] at hbad; cases hbad
          · have : (Except.ok ps : Except Unit (List (String × String))) = .error () :=
              ih.mpr ⟨u, hu2, hbad⟩
            cases this

theorem dictGet_of_not_mem_keys (d : List (String × String)) (k dflt : String)
    (h : k ∉ d.map Prod.fst) : dictGet d k dflt = dflt := by
  have hf : d.filter (fun p => p.1 = k) = [] := by
    rw [List.filter_eq_nil_iff]
    intro a ha
    simp only [decide_eq_true_eq]
    intro hak
    exact h (List.mem_map.mpr ⟨a, ha, hak⟩)
  rw [dictGet, hf]
  rfl

theorem dictGet_middle_ne (d₁ d₂ : List (String × String)) (k v key dflt : String)
    (h : k ≠ key) :
    dictGet (d₁ ++ (k, v) :: d₂) key dflt = dictGet (d₁ ++ d₂) key dflt := by
  rw [dictGet, dictGet, List.filter_append, List.filter_append, List.filter_cons]
  simp [h]

theorem processUserQuery_ok_iff (rw cl : String) (eq : EnrichedQuery) :
    processUserQuery rw cl = .ok eq ↔
      ∃ d, parseClassification cl = .ok d ∧ eq = ⟨rewriteQuery rw, queryTagsOfDict d⟩ := by
  cases h : parseClassification cl with
  | error e =>
    cases e
    simp [processUserQuery, h, Bind.bind, Except.bind]
  | ok d =>
    simp only [processUserQuery, h, Bind.bind, Except.bind, Except.ok.injEq]
    constructor
    · intro hx; exact ⟨d, rfl, hx.symm⟩
    · rintro ⟨d', hd', rfl⟩
      cases hd'
      rfl

theorem processUserQuery_error_ok (rw cl : String)
    (h : parseClassification cl = .error ()) :
    processUserQuery rw cl = .error () := by
  simp [processUserQuery, h, Bind.bind, Except.bind]

theorem runOutcome_ok_iff (I : RunInputs) (o : RunOutcome) :
    runOutcome I = .ok o ↔
      ∃ eq, processUserQuery I.rewriteRaw I.classifyRaw = .ok eq ∧ o = runOutcomeOf I eq := by
  cases h : processUserQuery I.rewriteRaw I.classifyRaw with
  | error e =>
    cases e
    simp [runOutcome, h, Bind.bind, Except.bind]
  | ok eq =>
    simp only [runOutcome, h, Bind.bind, Except.bind, Except.ok.injEq]
    constructor
    · intro hx; exact ⟨eq, rfl, hx.symm⟩
    · rintro ⟨eq', heq', rfl⟩
      cases heq'
      rfl

theorem runOutcome_error_of_parse (I : RunInputs)
    (h : parseClassification I.classifyRaw = .error ()) :
    runOutcome I = .error () := by
  simp [runOutcome, processUserQuery_error_ok I.rewriteRaw I.classifyRaw h,
    Bind.bind, Except.bind]

theorem hasMath_agree (t : Option QueryTags) :
    metadataEventHasMath t = persistedHasMath t := by
  cases t with
  | none => rfl
  | some tg => cases h : tg.has_math <;> simp [metadataEventHasMath, persistedHasMath, h]

theorem interleave_mem_left {α : Type} {xs ys zs : List α} {x : α}
    (h : Interleave xs ys zs) (hx : x ∈ xs) : x ∈ zs := by
  induction h with
  | nil => cases hx
  | left _ ih =>
    rcases List.mem_cons.mp hx with rfl | hx2
    · exact List.mem_cons_self _ _
    · exact List.mem_cons_of_mem _ (ih hx2)
  | right _ ih => exact List.mem_cons_of_mem _ (ih hx)

theorem interleave_mem_right {α : Type} {xs ys zs : List α} {y : α}
    (h : Interleave xs ys zs) (hy : y ∈ ys) : y ∈ zs := by
  induction h with
  | nil => cases hy
  | left _ ih => exact List.mem_cons_of_mem _ (ih hy)
  | right _ ih =>
    rcases List.mem_cons.mp hy with rfl | hy2
    · exact List.mem_cons_self _ _
    · exact List.mem_cons_of_mem _ (ih hy2)

theorem interleave_mem_or {α : Type} {xs ys zs : List α} {z : α}
    (h : Interleave xs ys zs) (hz : z ∈ zs) : z ∈ xs ∨ z ∈ ys := by
  induction h with
  | nil => cases hz
  | left _ ih =>
    rcases List.mem_cons.mp hz with rfl | hz2
    · exact Or.inl (List.mem_cons_self _ _)
    · rcases ih hz2 with h1 | h2
      · exact Or.inl (List.mem_cons_of_mem _ h1)
      · exact Or.inr h2
  | right _ ih =>
    rcases List.mem_cons.mp hz with rfl | hz2
    · exact Or.inr (List.mem_cons_self _ _)
    · rcases ih hz2 with h1 | h2
      · exact Or.inl h1
      · exact Or.inr (List.mem_cons_of_mem _ h2)

theorem runOutcomeOf_searchQuery (I : RunInputs) (eq : EnrichedQuery) :
    (runOutcomeOf I eq).searchQuery = eq.search_query := rfl

theorem runOutcomeOf_tags (I : RunInputs) (eq : EnrichedQuery) :
    (runOutcomeOf I eq).tags = eq.tags := rfl

theorem runOutcomeOf_generalResults (I : RunInputs) (eq : EnrichedQuery) :
    (runOutcomeOf I eq).generalResults
      = (I.searchOracle eq.search_query [Cat.general]).general := rfl

theorem runOutcomeOf_webPayload (I : RunInputs) (eq : EnrichedQuery) :
    (runOutcomeOf I eq).webPayload
      = (runOutcomeOf I eq).generalResults.map trimResult := rfl

theorem runOutcomeOf_fetchInput (I : RunInputs) (eq : EnrichedQuery) :
    (runOutcomeOf I eq).fetchInput = (runOutcomeOf I eq).generalResults.take 5 := rfl

theorem runOutcomeOf_metaHasMath (I : RunInputs) (eq : EnrichedQuery) :
    (runOutcomeOf I eq).metaHasMath = metadataEventHasMath (some eq.tags) := rfl

theorem runOutcomeOf_mediumOpt (I : RunInputs) (eq : EnrichedQuery) :
    (runOutcomeOf I eq).mediumOpt
      = if categoriesOf eq.tags = [] then none
        else some (I.searchOracle eq.search_query (categoriesOf eq.tags)) := rfl

theorem runOutcomeOf_mediumPayload (I : RunInputs) (eq : EnrichedQuery) :
    (runOutcomeOf I eq).mediumPayload
      = flattenMediums ((runOutcomeOf I eq).mediumOpt.getD (TopResults.mk [] [] [])) := rfl

theorem runOutcomeOf_answerParts (I : RunInputs) (eq : EnrichedQuery) :
    (runOutcomeOf I eq).answerParts = genAnswerParts I.chunks := rfl

theorem runOutcomeOf_answer (I : RunInputs) (eq : EnrichedQuery) :
    (runOutcomeOf I eq).answer = joinParts (genAnswerParts I.chunks) := rfl

theorem runOutcomeOf_record (I : RunInputs) (eq : EnrichedQuery) :
    (runOutcomeOf I eq).record
      = { id := I.freshId
          thread_id := I.threadId
          mediums := (runOutcomeOf I eq).mediumPayload
          web_results := (runOutcomeOf I eq).generalResults.map trimResult
          query := I.userMessage
          answer := joinParts (genAnswerParts I.chunks)
          metadata_has_math := persistedHasMath (some eq.tags) } := rfl

/-! ### Claims -/

/-- C1: for every list of N general results given to `fetch_web_pages` the
output has length exactly N; each index's document is determined by that
index's result alone (extractor applied to the fetched page, with a failed
fetch replaced by the empty page), and under the spec's extractor boundary
contract (`extract "" = ""`) a failing URL yields the empty document string
at its own index, in input order, without aborting the batch. -/
theorem fetch_preserves_length_and_isolates_failures
    (results : List GeneralResult) (fetchOracle : String → Option String)
    (extract : String → String) (hx : extract "" = "") :
    (fetchWebPages results fetchOracle extract).length = results.length ∧
    ∀ i (hi : i < results.length),
      (fetchWebPages results fetchOracle extract).get? i
        = some (extract (pyOrEmpty (fetchOracle (results.get ⟨i, hi⟩).url))) ∧
      (fetchOracle (results.get ⟨i, hi⟩).url = none →
        (fetchWebPages results fetchOracle extract).get? i = some "") := by
  refine ⟨List.length_map _ _, ?_⟩
  intro i hi
  have hmap : (fetchWebPages results fetchOracle extract).get? i
      = (results.get? i).map (fun r => extract (pyOrEmpty (fetchOracle r.url))) := by
    rw [fetchWebPages, List.get?_map]
  have hg : results.get? i = some (results.get ⟨i, hi⟩) := List.get?_eq_get hi
  constructor
  · rw [hmap, hg]; rfl
  · intro hn
    rw [hmap, hg]
    show some (extract (pyOrEmpty (fetchOracle (results.get ⟨i, hi⟩).url))) = some ""
    rw [hn, show pyOrEmpty none = "" from rfl, hx]

theorem fetch_preserves_length_witness :
    ((fun _ : String => ("" : String)) "" = "") ∧
    ((fetchWebPages [sampleHit] (fun _ => none) (fun _ => "")).length
        = [sampleHit].length ∧
      ∀ i (hi : i < [sampleHit].length),
        (fetchWebPages [sampleHit] (fun _ => none) (fun _ => "")).get? i
          = some ((fun _ : String => ("" : String))
              (pyOrEmpty ((fun _ : String => (none : Option String))
                (([sampleHit].get ⟨i, hi⟩).url)))) ∧
        ((fun _ : String => (none : Option String)) (([sampleHit].get ⟨i, hi⟩).url) = none →
          (fetchWebPages [sampleHit] (fun _ => none) (fun _ => "")).get? i = some "")) :=
  ⟨rfl, fetch_preserves_length_and_isolates_failures [sampleHit] (fun _ => none) (fun _ => "") rfl⟩

/-- C2: whenever a classification output parses as comma-separated
`KEY:VALUE` pairs, `process_user_query` builds the tags from the parsed
dictionary, each absent recognized key takes its documented default
(search/image/video true, violation/math false), and an unrecognized key
anywhere in the dictionary does not change the resulting tags. -/
theorem classification_defaults_and_ignoring
    (s : String) (d : List (String × String)) (h : parseClassification s = .ok d) :
    (∀ rw, processUserQuery rw s = .ok ⟨rewriteQuery rw, queryTagsOfDict d⟩) ∧
    ("SEARCH_NEEDED" ∉ d.map Prod.fst → (queryTagsOfDict d).needs_search = true) ∧
    ("SEARCH_IMAGE" ∉ d.map Prod.fst → (queryTagsOfDict d).needs_image = true) ∧
    ("SEARCH_VIDEO" ∉ d.map Prod.fst → (queryTagsOfDict d).needs_video = true) ∧
    ("CONTENT_VIOLATION" ∉ d.map Prod.fst → (queryTagsOfDict d).content_violation = false) ∧
    ("MATH" ∉ d.map Prod.fst → (queryTagsOfDict d).has_math = false) ∧
    (∀ d₁ d₂ k v, d = d₁ ++ (k, v) :: d₂ → k ∉ recognizedKeys →
      queryTagsOfDict d = queryTagsOfDict (d₁ ++ d₂)) := by
  refine ⟨?_, ?_, ?_, ?_, ?_, ?_, ?_⟩
  · intro rw
    exact (processUserQuery_ok_iff rw s _).mpr ⟨d, h, rfl⟩
  · intro hk
    simp [queryTagsOfDict, dictGet_of_not_mem_keys d _ _ hk]
    decide
  · intro hk
    simp [queryTagsOfDict, dictGet_of_not_mem_keys d _ _ hk]
    decide
  · intro hk
    simp [queryTagsOfDict, dictGet_of_not_mem_keys d _ _ hk]
    decide
  · intro hk
    simp [queryTagsOfDict, dictGet_of_not_mem_keys d _ _ hk]
    decide
  · intro hk
    simp [queryTagsOfDict, dictGet_of_not_mem_keys d _ _ hk]
    decide
  · rintro d₁ d₂ k v rfl hk
    have hks : k ≠ "SEARCH_NEEDED" ∧ k ≠ "SEARCH_IMAGE" ∧ k ≠ "SEARCH_VIDEO" ∧
        k ≠ "CONTENT_VIOLATION" ∧ k ≠ "MATH" := by
      simpa [recognizedKeys, not_or] using hk
    obtain ⟨h1, h2, h3, h4, h5⟩ := hks
    simp only [queryTagsOfDict,
      dictGet_middle_ne d₁ d₂ k v _ _ h1,
      dictGet_middle_ne d₁ d₂ k v _ _ h2,
      dictGet_middle_ne d₁ d₂ k v _ _ h3,
      dictGet_middle_ne d₁ d₂ k v _ _ h4,
      dictGet_middle_ne d₁ d₂ k v _ _ h5]

theorem classification_defaults_witness :
    parseClassification "MATH:YES" = .ok [("MATH", "YES")] ∧
    (queryTagsOfDict [("MATH", "YES")]).needs_search = true :=
  ⟨rfl,
    (classification_defaults_and_ignoring "MATH:YES" [("MATH", "YES")] rfl).2.1 (by decide)⟩

/-- C7 counterexample: with the streamed chunk contents `["a", "", "b"]`, the
emitted fragment sequence is `["a", "b"]`, not the full fragment sequence:
an empty fragment is not emitted, so the emitted sequence can differ from the
arrival sequence even though the concatenation is unaffected. -/
theorem gen_answer_claim_counterexample :
    ¬ (∀ chunks : List (Option String),
        joinParts (genAnswerParts chunks) = joinParts (chunks.filterMap id) ∧
        genAnswerParts chunks = chunks.filterMap id) := by
  intro h
  exact absurd (h [some "a", some "", some "b"]).2 (by decide)

/-- C7 amended: the answer returned by `gen_answer` is the concatenation of
all streamed fragment contents in arrival order (empty fragments contribute
nothing), and the emitted event sequence is exactly the subsequence of
non-empty fragments in arrival order, one event per non-empty fragment. -/
theorem gen_answer_concat_and_emission (chunks : List (Option String)) :
    joinParts (genAnswerParts chunks) = joinParts (chunks.filterMap id) ∧
    genAnswerParts chunks = (chunks.filterMap id).filter (fun s => s != "") := by
  refine ⟨?_, genAnswerParts_eq_filter chunks⟩
  rw [genAnswerParts_eq_filter, joinParts_filter_ne]

/-- C9: for every successful run, the `has_math` carried by the metadata
event equals the `has_math` stored in the persisted record's metadata. -/
theorem metadata_hasmath_agree (I : RunInputs) (o : RunOutcome)
    (h : runOutcome I = .ok o) :
    o.metaHasMath = o.record.metadata_has_math := by
  obtain ⟨eq, hp, rfl⟩ := (runOutcome_ok_iff I o).mp h
  show metadataEventHasMath (some eq.tags) = persistedHasMath (some eq.tags)
  exact hasMath_agree _

theorem metadata_hasmath_agree_witness :
    runOutcome cIn9 = .ok (outcomeOfInputs cIn9) ∧
    (outcomeOfInputs cIn9).metaHasMath = (outcomeOfInputs cIn9).record.metadata_has_math :=
  ⟨rfl, metadata_hasmath_agree cIn9 (outcomeOfInputs cIn9) rfl⟩

/-- C3 counterexample: in the run `cIn3` the tags request images but the
media search returns no image and no video hits, so the medium-results
payload is empty while `needs_image` is true — the payload being empty is
not equivalent to neither flag being set. -/
theorem medium_payload_iff_counterexample :
    ¬ (∀ (I : RunInputs) (o : RunOutcome), runOutcome I = .ok o →
        (o.mediumPayload = [] ↔
          (o.tags.needs_image = false ∧ o.tags.needs_video = false))) := by
  intro h
  have hx := h cIn3 (outcomeOfInputs cIn3) rfl
  exact absurd (hx.mp rfl).1 (by decide)

/-- C3 amended: when neither `needs_image` nor `needs_video` is set, the
second search call is skipped entirely and the medium-results payload is the
empty list; when either flag is set, the second search is issued and the
payload is its flattened media hits — which may itself be empty. -/
theorem medium_payload_amended (I : RunInputs) (o : RunOutcome)
    (h : runOutcome I = .ok o) :
    (o.tags.needs_image = false ∧ o.tags.needs_video = false →
      o.mediumOpt = none ∧ o.mediumPayload = []) ∧
    (o.tags.needs_image = true ∨ o.tags.needs_video = true →
      ∃ tr, o.mediumOpt = some tr ∧ o.mediumPayload = flattenMediums tr) := by
  obtain ⟨eq, hp, rfl⟩ := (runOutcome_ok_iff I o).mp h
  constructor
  · rintro ⟨hi, hv⟩
    rw [runOutcomeOf_tags] at hi hv
    have hcats : categoriesOf eq.tags = [] := by
      simp [categoriesOf, hi, hv]
    refine ⟨?_, ?_⟩
    · rw [runOutcomeOf_mediumOpt, if_pos hcats]
    · rw [runOutcomeOf_mediumPayload, runOutcomeOf_mediumOpt, if_pos hcats]
      rfl
  · intro hiv
    rw [runOutcomeOf_tags] at hiv
    have hcats : categoriesOf eq.tags ≠ [] := by
      rcases hiv with hi | hv
      · simp [categoriesOf, hi]
      · simp [categoriesOf, hv]
    refine ⟨I.searchOracle eq.search_query (categoriesOf eq.tags), ?_, ?_⟩
    · rw [runOutcomeOf_mediumOpt, if_neg hcats]
    · rw [runOutcomeOf_mediumPayload, runOutcomeOf_mediumOpt, if_neg hcats]
      rfl

theorem medium_payload_amended_witness :
    runOutcome cIn3w = .ok (outcomeOfInputs cIn3w) ∧
    (((outcomeOfInputs cIn3w).tags.needs_image = false ∧
        (outcomeOfInputs cIn3w).tags.needs_video = false →
      (outcomeOfInputs cIn3w).mediumOpt = none ∧
        (outcomeOfInputs cIn3w).mediumPayload = []) ∧
      ((outcomeOfInputs cIn3w).tags.needs_image = true ∨
          (outcomeOfInputs cIn3w).tags.needs_video = true →
        ∃ tr, (outcomeOfInputs cIn3w).mediumOpt = some tr ∧
          (outcomeOfInputs cIn3w).mediumPayload = flattenMediums tr)) :=
  ⟨rfl, medium_payload_amended cIn3w (outcomeOfInputs cIn3w) rfl⟩

/-- C5 counterexample: with rewrite output `" hi "` the code's search query
keeps the surrounding whitespace (`strip('"').strip("'")` never trims
whitespace), so it differs from the output trimmed and quote-stripped. -/
theorem rewrite_query_claim_counterexample :
    ¬ (∀ (I : RunInputs) (o : RunOutcome), runOutcome I = .ok o →
        o.searchQuery = specRewriteOriginal I.rewriteRaw) := by
  intro h
  have hx := h cIn5 (outcomeOfInputs cIn5) rfl
  exact absurd hx (by decide)

/-- C5 amended: the search query used for every search call of the run
equals the rewrite output with the maximal run of surrounding double-quote
characters removed, then the maximal run of surrounding single-quote
characters removed, with no whitespace trimming and no other change. -/
theorem rewrite_query_amended (I : RunInputs) (o : RunOutcome)
    (h : runOutcome I = .ok o) :
    o.searchQuery = specRewriteAmended I.rewriteRaw ∧
    o.generalResults
      = (I.searchOracle (specRewriteAmended I.rewriteRaw) [Cat.general]).general ∧
    (o.mediumOpt = none ∨
      o.mediumOpt
        = some (I.searchOracle (specRewriteAmended I.rewriteRaw) (categoriesOf o.tags))) := by
  obtain ⟨eq, hp, rfl⟩ := (runOutcome_ok_iff I o).mp h
  obtain ⟨d, hd, rfl⟩ := (processUserQuery_ok_iff I.rewriteRaw I.classifyRaw eq).mp hp
  refine ⟨rewriteQuery_eq_amended _, ?_, ?_⟩
  · show (I.searchOracle (rewriteQuery I.rewriteRaw) [Cat.general]).general
        = (I.searchOracle (specRewriteAmended I.rewriteRaw) [Cat.general]).general
    rw [rewriteQuery_eq_amended]
  · by_cases hc : categoriesOf (queryTagsOfDict d) = []
    · left
      rw [runOutcomeOf_mediumOpt]
      exact if_pos hc
    · right
      rw [runOutcomeOf_mediumOpt, runOutcomeOf_tags]
      show (if categoriesOf (queryTagsOfDict d) = [] then none
          else some (I.searchOracle (rewriteQuery I.rewriteRaw)
            (categoriesOf (queryTagsOfDict d)))) = _
      rw [if_neg hc, rewriteQuery_eq_amended]

theorem rewrite_query_amended_witness :
    runOutcome cIn5 = .ok (outcomeOfInputs cIn5) ∧
    ((outcomeOfInputs cIn5).searchQuery = specRewriteAmended cIn5.rewriteRaw ∧
      (outcomeOfInputs cIn5).generalResults
        = (cIn5.searchOracle (specRewriteAmended cIn5.rewriteRaw) [Cat.general]).general ∧
      ((outcomeOfInputs cIn5).mediumOpt = none ∨
        (outcomeOfInputs cIn5).mediumOpt
          = some (cIn5.searchOracle (specRewriteAmended cIn5.rewriteRaw)
              (categoriesOf (outcomeOfInputs cIn5).tags)))) :=
  ⟨rfl, rewrite_query_amended cIn5 (outcomeOfInputs cIn5) rfl⟩

/-- C6: a classification output in which some comma-separated piece does not
split on `:` into exactly a key and a value makes the parse fail; the error
propagates, the run aborts with no fallback, no event is emitted, and no
chat-history record is persisted. -/
theorem unparseable_classification_aborts (I : RunInputs)
    (h : ∃ t ∈ pySplitChar ',' (pyStripChar '\'' (pyStripChar '"' I.classifyRaw)),
      (pySplitChar ':' (pyStrip t)).length ≠ 2) :
    parseClassification I.classifyRaw = .error () ∧
    processUserQuery I.rewriteRaw I.classifyRaw = .error () ∧
    runOutcome I = .error () ∧
    ∀ t, RunTrace I t → t = [] ∧ ∀ r, Event.persist r ∉ t := by
  have hperr : parseClassification I.classifyRaw = .error () := by
    rw [parseClassification, parsePairs_error_iff]
    obtain ⟨u, hu, hlen⟩ := h
    exact ⟨u, hu, (parsePair_error_iff u).mpr hlen⟩
  refine ⟨hperr, processUserQuery_error_ok _ _ hperr,
    runOutcome_error_of_parse I hperr, ?_⟩
  intro t ht
  rcases ht with ⟨_, rfl⟩ | ⟨o, ho, _⟩
  · exact ⟨rfl, by intro r hr; cases hr⟩
  · rw [runOutcome_error_of_parse I hperr] at ho
    cases ho

theorem unparseable_classification_witness :
    (∃ t ∈ pySplitChar ',' (pyStripChar '\'' (pyStripChar '"' cIn6.classifyRaw)),
      (pySplitChar ':' (pyStrip t)).length ≠ 2) ∧
    (parseClassification cIn6.classifyRaw = .error () ∧
      processUserQuery cIn6.rewriteRaw cIn6.classifyRaw = .error () ∧
      runOutcome cIn6 = .error () ∧
      ∀ t, RunTrace cIn6 t → t = [] ∧ ∀ r, Event.persist r ∉ t) :=
  ⟨by decide, unparseable_classification_aborts cIn6 (by decide)⟩

/-- C4: in every trace a run can produce, any answer-fragment event is
preceded by the web-results event: the web-results emission belongs to the
join barrier that completes before answer generation starts. -/
theorem web_results_before_first_answer (I : RunInputs) (t : List Event)
    (h : RunTrace I t) (j : Nat) (frag : String)
    (ha : t.get? j = some (Event.answer frag)) :
    ∃ i, i < j ∧ ∃ p, t.get? i = some (Event.webResults p) := by
  rcases h with ⟨_, rfl⟩ | ⟨o, ho, mid, hint, rfl⟩
  · simp at ha
  · match j with
    | 0 => simp at ha
    | 1 => simp at ha
    | (n + 2) =>
      exact ⟨1, by omega, o.webPayload, rfl⟩

theorem web_results_before_first_answer_witness :
    ∃ i, i < 2 ∧ ∃ p, tr4.get? i = some (Event.webResults p) :=
  web_results_before_first_answer cIn4 tr4
    (Or.inr ⟨outcomeOfInputs cIn4, rfl,
      [Event.answer "hi", Event.mediumResults []],
      Interleave.left (Interleave.right Interleave.nil), rfl⟩)
    2 "hi" rfl

/-- C8: in every trace of a successful run the record is handed to the
persistence collaborator exactly once, strictly after the medium-results
event and after every answer-fragment event; the record carries the fresh
id, the thread id, the flattened media items, the trimmed web results, the
original user utterance and the full synthesized answer text. -/
theorem persist_once_after_answer_and_medium (I : RunInputs) (t : List Event)
    (o : RunOutcome) (ho : runOutcome I = .ok o) (ht : RunTrace I t) :
    ∃ pre, t = pre ++ [Event.persist o.record] ∧
      (∀ r, Event.persist r ∉ pre) ∧
      Event.mediumResults o.mediumPayload ∈ pre ∧
      (∀ s ∈ o.answerParts, Event.answer s ∈ pre) ∧
      o.record.id = I.freshId ∧
      o.record.thread_id = I.threadId ∧
      o.record.mediums = o.mediumPayload ∧
      o.record.web_results = o.generalResults.map trimResult ∧
      o.record.query = I.userMessage ∧
      o.record.answer = joinParts (genAnswerParts I.chunks) := by
  rcases ht with ⟨he, _⟩ | ⟨o2, ho2, mid, hint, rfl⟩
  · rw [ho] at he
    cases he
  · rw [ho] at ho2
    injection ho2 with ho3
    subst ho3
    obtain ⟨eq, hp, rfl⟩ := (runOutcome_ok_iff I o).mp ho
    refine ⟨Event.metadata (runOutcomeOf I eq).metaHasMath ::
        Event.webResults (runOutcomeOf I eq).webPayload :: mid, rfl, ?_, ?_, ?_,
      rfl, rfl, rfl, rfl, rfl, rfl⟩
    · intro r hr
      rcases List.mem_cons.mp hr with hr0 | hr1
      · cases hr0
      rcases List.mem_cons.mp hr1 with hr2 | hr3
      · cases hr2
      rcases interleave_mem_or hint hr3 with hr4 | hr5
      · obtain ⟨s, _, hs⟩ := List.mem_map.mp hr4
        cases hs
      · cases List.mem_singleton.mp hr5
    · exact List.mem_cons_of_mem _ (List.mem_cons_of_mem _
        (interleave_mem_right hint (List.mem_singleton.mpr rfl)))
    · intro s hs
      exact List.mem_cons_of_mem _ (List.mem_cons_of_mem _
        (interleave_mem_left hint (List.mem_map_of_mem Event.answer hs)))

theorem persist_once_witness :
    ∃ pre, tr8 = pre ++ [Event.persist rec8] ∧
      (∀ r, Event.persist r ∉ pre) ∧
      Event.mediumResults [] ∈ pre ∧
      (∀ s ∈ (["ok"] : List String), Event.answer s ∈ pre) ∧
      rec8.id = "id8" ∧
      rec8.thread_id = "th8" ∧
      rec8.mediums = ([] : List Medium) ∧
      rec8.web_results = [sampleHit].map trimResult ∧
      rec8.query = "m8" ∧
      rec8.answer = joinParts (genAnswerParts cIn8.chunks) :=
  persist_once_after_answer_and_medium cIn8 tr8 (outcomeOfInputs cIn8) rfl
    (Or.inr ⟨outcomeOfInputs cIn8, rfl,
      [Event.mediumResults [], Event.answer "ok"],
      Interleave.right (Interleave.left Interleave.nil), rfl⟩)

/-- C10: for every successful run with N general results, both the emitted
web-results payload and the persisted `web_results` list contain all N
results in search order, each trimmed to exactly url, title and content,
while the page fetcher receives only the first min(5, N) results. -/
theorem web_results_full_fetch_capped (I : RunInputs) (o : RunOutcome)
    (h : runOutcome I = .ok o) :
    o.webPayload = o.generalResults.map trimResult ∧
    o.record.web_results = o.generalResults.map trimResult ∧
    o.webPayload.length = o.generalResults.length ∧
    (∀ i (hi : i < o.generalResults.length),
      o.webPayload.get? i = some (trimResult (o.generalResults.get ⟨i, hi⟩))) ∧
    o.fetchInput = o.generalResults.take 5 ∧
    o.fetchInput.length = min 5 o.generalResults.length := by
  obtain ⟨eq, hp, rfl⟩ := (runOutcome_ok_iff I o).mp h
  refine ⟨rfl, rfl, List.length_map _ _, ?_, rfl, List.length_take _ _⟩
  intro i hi
  rw [runOutcomeOf_webPayload, List.get?_map, List.get?_eq_get hi]
  rfl

theorem web_results_full_fetch_capped_witness :
    runOutcome cIn10 = .ok (outcomeOfInputs cIn10) ∧
    ((outcomeOfInputs cIn10).webPayload
        = (outcomeOfInputs cIn10).generalResults.map trimResult ∧
      (outcomeOfInputs cIn10).record.web_results
        = (outcomeOfInputs cIn10).generalResults.map trimResult ∧
      (outcomeOfInputs cIn10).webPayload.length
        = (outcomeOfInputs cIn10).generalResults.length ∧
      (∀ i (hi : i < (outcomeOfInputs cIn10).generalResults.length),
        (outcomeOfInputs cIn10).webPayload.get? i
          = some (trimResult ((outcomeOfInputs cIn10).generalResults.get ⟨i, hi⟩))) ∧
      (outcomeOfInputs cIn10).fetchInput
        = (outcomeOfInputs cIn10).generalResults.take 5 ∧
      (outcomeOfInputs cIn10).fetchInput.length
        = min 5 (outcomeOfInputs cIn10).generalResults.length) :=
  ⟨rfl, web_results_full_fetch_capped cIn10 (outcomeOfInputs cIn10) rfl⟩

end Sensei
